import Mathlib

/-!
Verification development for the liquidio liquidation-bot pipeline.

Shallow embedding conventions:
* `U256` values are modelled as `ℕ`; ethers `U256` arithmetic panics on
  overflow, so theorems about multiplications either stay below the
  bound at their concrete inputs or carry an explicit no-overflow
  hypothesis (`< 2 ^ 256`) marking the domain on which the model is
  faithful. The one multiplication the source performs in `u64` before
  converting to `U256` (`ETH_PRICE_USD * 10u64.pow(18)` in
  `simulate_liquidation`) overflows `u64` and wraps modulo `2 ^ 64` in a
  release build (a debug build panics); the model keeps the release
  behaviour with an explicit `% 2 ^ 64`.
* `f64` quantities (USD amounts, thresholds, latency microseconds) are
  modelled as exact rationals `ℚ`; every concrete fact we prove about
  them is far from any rounding boundary of binary64.
* Clock reads (`Instant::now()`, `SystemTime::now()`) are modelled by
  explicit `ℕ` time arguments threaded into the functions that read the
  clock; `Instant::duration_since` saturates at zero, which matches `ℕ`
  subtraction.
* `Result<T>` values whose only failure source is an external lookup are
  modelled with `Option` for the lookup and plain values for the caller
  when the caller cannot itself return `Err`.
-/

/-- Model of `metrics.rs LatencyMetrics`: `t_received` is a non-optional
field set at construction, the five stage timestamps are optional. -/
structure LatencyMetrics where
  t_received : ℕ
  t_decoded : Option ℕ
  t_signal : Option ℕ
  t_simulated : Option ℕ
  t_constructed : Option ℕ
  t_sent : Option ℕ
deriving DecidableEq

namespace LatencyMetrics

/-- `LatencyMetrics::new`: records the construction-time clock reading in
`t_received`, all other timestamps start absent. -/
def new (now : ℕ) : LatencyMetrics :=
  { t_received := now
    t_decoded := none
    t_signal := none
    t_simulated := none
    t_constructed := none
    t_sent := none }

/-- `mark_decoded`: `self.t_decoded = Some(Instant::now())` (unconditional). -/
def mark_decoded (m : LatencyMetrics) (now : ℕ) : LatencyMetrics :=
  { m with t_decoded := some now }

/-- `mark_signal`: `self.t_signal = Some(Instant::now())` (unconditional). -/
def mark_signal (m : LatencyMetrics) (now : ℕ) : LatencyMetrics :=
  { m with t_signal := some now }

/-- `mark_simulated`: `self.t_simulated = Some(Instant::now())` (unconditional). -/
def mark_simulated (m : LatencyMetrics) (now : ℕ) : LatencyMetrics :=
  { m with t_simulated := some now }

/-- `mark_constructed`: `self.t_constructed = Some(Instant::now())` (unconditional). -/
def mark_constructed (m : LatencyMetrics) (now : ℕ) : LatencyMetrics :=
  { m with t_constructed := some now }

/-- `mark_sent`: `self.t_sent = Some(Instant::now())` (unconditional). -/
def mark_sent (m : LatencyMetrics) (now : ℕ) : LatencyMetrics :=
  { m with t_sent := some now }

/-- `latency_decode`: `t_decoded.map(|t| t.duration_since(t_received))`. -/
def latency_decode (m : LatencyMetrics) : Option ℕ :=
  m.t_decoded.map (fun t => t - m.t_received)

/-- `latency_signal_detection`: present iff both `t_decoded` and `t_signal` are. -/
def latency_signal_detection (m : LatencyMetrics) : Option ℕ :=
  match m.t_decoded, m.t_signal with
  | some decoded, some signal => some (signal - decoded)
  | _, _ => none

/-- `latency_simulation`: present iff both `t_signal` and `t_simulated` are. -/
def latency_simulation (m : LatencyMetrics) : Option ℕ :=
  match m.t_signal, m.t_simulated with
  | some signal, some simulated => some (simulated - signal)
  | _, _ => none

/-- `latency_construction`: present iff both `t_simulated` and `t_constructed` are. -/
def latency_construction (m : LatencyMetrics) : Option ℕ :=
  match m.t_simulated, m.t_constructed with
  | some simulated, some constructed => some (constructed - simulated)
  | _, _ => none

/-- `latency_end_to_end`: `t_sent.map(|t| t.duration_since(t_received))`. -/
def latency_end_to_end (m : LatencyMetrics) : Option ℕ :=
  m.t_sent.map (fun t => t - m.t_received)

/-- `get_all_latencies`: the name-to-microseconds rows, inserting each
derived duration that is present (microsecond counts cast to `f64`,
modelled as `ℚ`). -/
def get_all_latencies (m : LatencyMetrics) : List (String × ℚ) :=
  (match latency_decode m with
   | some d => [("decode_us", (d : ℚ))]
   | none => []) ++
  (match latency_signal_detection m with
   | some d => [("signal_detection_us", (d : ℚ))]
   | none => []) ++
  (match latency_simulation m with
   | some d => [("simulation_us", (d : ℚ))]
   | none => []) ++
  (match latency_construction m with
   | some d => [("construction_us", (d : ℚ))]
   | none => []) ++
  (match latency_end_to_end m with
   | some d => [("end_to_end_us", (d : ℚ))]
   | none => [])

end LatencyMetrics

/-- The five stage-mark methods, as data, used to talk about arbitrary
sequences of mark calls on a `LatencyMetrics` value. -/
inductive Mark where
  | decoded
  | signal
  | simulated
  | constructed
  | sent
deriving DecidableEq

/-- Apply one stage-mark method at the given clock reading. -/
def applyMark (m : LatencyMetrics) (mk : Mark) (now : ℕ) : LatencyMetrics :=
  match mk with
  | .decoded => m.mark_decoded now
  | .signal => m.mark_signal now
  | .simulated => m.mark_simulated now
  | .constructed => m.mark_constructed now
  | .sent => m.mark_sent now

/-- Apply a sequence of mark calls, each paired with its clock reading. -/
def applyMarks (m : LatencyMetrics) : List (Mark × ℕ) → LatencyMetrics
  | [] => m
  | (mk, t) :: rest => applyMarks (applyMark m mk t) rest

/-- Pipeline-stage index of each mark method (`t_received` is stage 0). -/
def stageIdx : Mark → ℕ
  | .decoded => 1
  | .signal => 2
  | .simulated => 3
  | .constructed => 4
  | .sent => 5

/-- Checkpoint of a `LatencyMetrics` value by stage index; indexes beyond
the six fields are absent. -/
def cp (m : LatencyMetrics) : ℕ → Option ℕ
  | 0 => some m.t_received
  | 1 => m.t_decoded
  | 2 => m.t_signal
  | 3 => m.t_simulated
  | 4 => m.t_constructed
  | 5 => m.t_sent
  | _ => none

/-- Order on optional timestamps comparing only pairs where both are set. -/
def optLe : Option ℕ → Option ℕ → Prop
  | some x, some y => x ≤ y
  | some _, none => True
  | none, _ => True

instance : ∀ a b, Decidable (optLe a b)
  | some _, some _ => inferInstanceAs (Decidable (_ ≤ _))
  | some _, none => isTrue trivial
  | none, some _ => isTrue trivial
  | none, none => isTrue trivial

/-- The §3 checkpoint invariant: whichever timestamps are set are
non-decreasing in the fixed stage order. -/
def monoChain (m : LatencyMetrics) : Prop :=
  ∀ i j, i ≤ j → optLe (cp m i) (cp m j)

/-- A monotone clock across a sequence of mark calls: each reading is at
least the previous one (`t` is the last reading taken so far). -/
def ClockOk : ℕ → List (Mark × ℕ) → Prop
  | _, [] => True
  | t, (_, tm) :: rest => t ≤ tm ∧ ClockOk tm rest

def decClockOk : (t : ℕ) → (seq : List (Mark × ℕ)) → Decidable (ClockOk t seq)
  | _, [] => isTrue trivial
  | t, (_, tm) :: rest =>
    have : Decidable (ClockOk tm rest) := decClockOk tm rest
    inferInstanceAs (Decidable (t ≤ tm ∧ ClockOk tm rest))

instance (t : ℕ) (seq : List (Mark × ℕ)) : Decidable (ClockOk t seq) :=
  decClockOk t seq

/-- Mark calls made in non-decreasing pipeline-stage order under a
monotone clock: `k` is the last stage marked so far, `t` the last clock
reading. -/
def SeqOk : ℕ → ℕ → List (Mark × ℕ) → Prop
  | _, _, [] => True
  | k, t, (mk, tm) :: rest => k ≤ stageIdx mk ∧ t ≤ tm ∧ SeqOk (stageIdx mk) tm rest

def decSeqOk : (k : ℕ) → (t : ℕ) → (seq : List (Mark × ℕ)) → Decidable (SeqOk k t seq)
  | _, _, [] => isTrue trivial
  | k, t, (mk, tm) :: rest =>
    have : Decidable (SeqOk (stageIdx mk) tm rest) := decSeqOk (stageIdx mk) tm rest
    inferInstanceAs (Decidable (k ≤ stageIdx mk ∧ t ≤ tm ∧ SeqOk (stageIdx mk) tm rest))

instance (k t : ℕ) (seq : List (Mark × ℕ)) : Decidable (SeqOk k t seq) :=
  decSeqOk k t seq

/-- Model of `metrics.rs AggregateMetrics`; each latency row is the
name-to-microseconds association produced by `get_all_latencies`. -/
structure AggregateMetrics where
  total_attempts : ℕ
  successful_liquidations : ℕ
  failed_liquidations : ℕ
  latencies : List (List (String × ℚ))

/-- `AggregateMetrics::new`. -/
def AggregateMetrics.new : AggregateMetrics :=
  { total_attempts := 0
    successful_liquidations := 0
    failed_liquidations := 0
    latencies := [] }

/-- `record_attempt`: bump the counters and append the row. -/
def AggregateMetrics.record_attempt (agg : AggregateMetrics)
    (m : LatencyMetrics) (success : Bool) : AggregateMetrics :=
  { agg with
    total_attempts := agg.total_attempts + 1
    successful_liquidations :=
      if success then agg.successful_liquidations + 1 else agg.successful_liquidations
    failed_liquidations :=
      if success then agg.failed_liquidations else agg.failed_liquidations + 1
    latencies := agg.latencies ++ [LatencyMetrics.get_all_latencies m] }

/-- `HashMap::get` on one recorded row. -/
def row_get : List (String × ℚ) → String → Option ℚ
  | [], _ => none
  | (k, v) :: rest, name => if k = name then some v else row_get rest name

/-- The `filter_map` collection step of `percentile`: all present values
of a metric across the recorded rows. -/
def metricValues (agg : AggregateMetrics) (metric_name : String) : List ℚ :=
  agg.latencies.filterMap (fun m => row_get m metric_name)

/-- `AggregateMetrics::percentile`: collect, sort ascending, then select
`floor(p/100 * n)` clamped to `n-1` (an `f64`-to-`usize` cast saturates
below at zero, which `Int.toNat` matches). -/
def percentile (agg : AggregateMetrics) (metric_name : String) (p : ℚ) : Option ℚ :=
  let values := metricValues agg metric_name
  if values.isEmpty then none
  else
    let sorted := values.insertionSort (· ≤ ·)
    let index := (⌊(p / 100) * (values.length : ℚ)⌋).toNat
    some (sorted.getD (min index (values.length - 1)) 0)

/-- `AggregateMetrics::mean`. -/
def mean (agg : AggregateMetrics) (metric_name : String) : Option ℚ :=
  let values := metricValues agg metric_name
  if values.isEmpty then none
  else some ((values.foldr (· + ·) 0) / (values.length : ℚ))

/-- Model of `mempool_streamer.rs TransactionType`. -/
inductive TransactionType where
  | Deposit
  | Withdraw
  | Borrow
  | Repay
  | Liquidate
deriving DecidableEq

/-- Model of an ethers `Transaction` restricted to the fields the core
reads: sender (`tx.from`), recipient (`tx.to`) and calldata (`tx.input`,
a byte list; each entry is a byte value below 256). Addresses are
modelled as `ℕ`. -/
structure Transaction where
  from_addr : ℕ
  to_addr : Option ℕ
  input : List ℕ
deriving DecidableEq

/-- `TransactionClassifier::is_protocol_transaction`:
`tx.to.map(|addr| addr == protocol_address).unwrap_or(false)`. -/
def is_protocol_transaction (tx : Transaction) (protocol_address : ℕ) : Bool :=
  (tx.to_addr.map (fun addr => decide (addr = protocol_address))).getD false

/-- The `match selector` table of `classify_transaction`, applied to the
first four bytes of the calldata. -/
def classify_selector : List ℕ → Option TransactionType
  | [0xd0, 0xe3, 0x0d, 0xb0] => some TransactionType.Deposit
  | [0xc5, 0xeb, 0xea, 0xec] => some TransactionType.Borrow
  | [0x2e, 0x1a, 0x7d, 0x4d] => some TransactionType.Withdraw
  | [0x37, 0x1f, 0xd8, 0xe6] => some TransactionType.Repay
  | [0x26, 0xcd, 0xbe, 0x1a] => some TransactionType.Liquidate
  | _ => none

/-- `TransactionClassifier::classify_transaction`: `None` for payloads
shorter than four bytes, otherwise the exact table lookup on
`&tx.input[..4]`. -/
def classify_transaction (tx : Transaction) : Option TransactionType :=
  if tx.input.length < 4 then none
  else classify_selector (tx.input.take 4)

/-- `TransactionClassifier::extract_user_address`: returns `tx.from`. -/
def extract_user_address (tx : Transaction) : ℕ :=
  tx.from_addr

/-- `U256::to_big_endian` into a 32-byte buffer. -/
def to_big_endian (amount : ℕ) : List ℕ :=
  (List.range 32).map (fun i => amount / 256 ^ (31 - i) % 256)

/-- `encode_deposit_call`: the bare `deposit()` selector `0xd0e30db0`. -/
def encode_deposit_call : List ℕ :=
  [0xd0, 0xe3, 0x0d, 0xb0]

/-- `encode_borrow_call`: selector `0xc5ebeaec` followed by the 32-byte
big-endian amount. -/
def encode_borrow_call (amount : ℕ) : List ℕ :=
  [0xc5, 0xeb, 0xea, 0xec] ++ to_big_endian amount

/-- `encode_withdraw_call`: selector `0x2e1a7d4d` followed by the amount. -/
def encode_withdraw_call (amount : ℕ) : List ℕ :=
  [0x2e, 0x1a, 0x7d, 0x4d] ++ to_big_endian amount

/-- `encode_repay_call`: selector `0x371fd8e6` followed by the amount. -/
def encode_repay_call (amount : ℕ) : List ℕ :=
  [0x37, 0x1f, 0xd8, 0xe6] ++ to_big_endian amount

/-- An `Address` serialized as its 20 big-endian bytes
(`user.as_bytes()`). -/
def address_bytes (user : ℕ) : List ℕ :=
  (List.range 20).map (fun i => user / 256 ^ (19 - i) % 256)

/-- `executor.rs encode_liquidate_call`: selector `0x26cdbe1a`, the
address left-padded to 32 bytes, then the 32-byte big-endian debt. -/
def encode_liquidate_call (user : ℕ) (debt_to_cover : ℕ) : List ℕ :=
  [0x26, 0xcd, 0xbe, 0x1a] ++ (List.replicate 12 0 ++ address_bytes user) ++
    to_big_endian debt_to_cover

/-- The liquidated account named by a `liquidate(address,uint256)` call:
the 20 low bytes of the first ABI word of the calldata (bytes 16..36),
per the `LendingProtocol` ABI in `blockchain.rs`. -/
def calldata_liquidated_user (input : List ℕ) : ℕ :=
  ((input.drop 16).take 20).foldl (fun acc b => acc * 256 + b) 0

/-- `liquidation_detector.rs LIQUIDATION_THRESHOLD`. -/
def LIQUIDATION_THRESHOLD : ℕ := 100

/-- Model of `UserPosition`. -/
structure UserPosition where
  collateral : ℕ
  debt : ℕ
  health_factor : ℕ
  last_updated : ℕ
deriving DecidableEq

/-- Model of `LiquidationSignal`. -/
structure LiquidationSignal where
  user : ℕ
  collateral : ℕ
  debt : ℕ
  health_factor : ℕ
  metrics : LatencyMetrics
deriving DecidableEq

/-- The detector's position store, `HashMap<Address, UserPosition>`,
modelled as an association list with at most one entry per key. -/
def PositionStore : Type := List (ℕ × UserPosition)

/-- `HashMap::get` (a copy of the snapshot, as in `positions.get(&user)`). -/
def store_get : PositionStore → ℕ → Option UserPosition
  | [], _ => none
  | (k, q) :: rest, u => if k = u then some q else store_get rest u

/-- `HashMap::insert`: replace the existing entry for the key or add one. -/
def store_insert : PositionStore → ℕ → UserPosition → PositionStore
  | [], u, p => [(u, p)]
  | (k, q) :: rest, u, p =>
    if k = u then (u, p) :: rest else (k, q) :: store_insert rest u p

/-- The external chain-state lookup `BlockchainClient::get_position`,
returning `(collateral, debt, health_factor)`; `none` models `Err`. -/
def PositionLookup : Type := ℕ → Option (ℕ × ℕ × ℕ)

/-- `LiquidationDetector::update_position`: fetch from the chain, then
insert the fresh snapshot. On lookup failure the `?` operator returns
before any write, so the store is untouched (`none` result). -/
def update_position (lookup : PositionLookup) (now : ℕ)
    (st : PositionStore) (user : ℕ) : Option PositionStore :=
  match lookup user with
  | none => none
  | some (collateral, debt, health_factor) =>
    some (store_insert st user
      { collateral := collateral
        debt := debt
        health_factor := health_factor
        last_updated := now })

/-- `LiquidationDetector::check_liquidation`: read the snapshot, emit a
signal iff `health_factor < LIQUIDATION_THRESHOLD && debt > 0`, marking
the signal-detected time on the metrics first. Returns the possibly
updated metrics alongside the optional signal (the Rust `&mut` borrow). -/
def check_liquidation (st : PositionStore) (user : ℕ) (t_signal : ℕ)
    (metrics : LatencyMetrics) : Option LiquidationSignal × LatencyMetrics :=
  match store_get st user with
  | none => (none, metrics)
  | some position =>
    if position.health_factor < LIQUIDATION_THRESHOLD ∧ 0 < position.debt then
      let metrics := metrics.mark_signal t_signal
      (some { user := user
              collateral := position.collateral
              debt := position.debt
              health_factor := position.health_factor
              metrics := metrics }, metrics)
    else (none, metrics)

/-- The clock readings `process_transaction` can take, in program order:
construction of the metrics, `mark_decoded`, the `mark_signal` inside
`check_liquidation`, the redundant `mark_signal` after it, and the
`SystemTime` stamp taken by `update_position`. -/
structure DetectorClock where
  t_new : ℕ
  t_decoded : ℕ
  t_signal : ℕ
  t_signal2 : ℕ
  t_updated : ℕ

/-- `LiquidationDetector::process_transaction`. Returns the store after
the call and the optional signal; the Rust return type is
`Result<Option<LiquidationSignal>>` but every path in the source yields
`Ok`, lookup failures included, so the model returns the payload. -/
def process_transaction (lookup : PositionLookup) (clk : DetectorClock)
    (st : PositionStore) (tx : Transaction) (protocol_address : ℕ) :
    PositionStore × Option LiquidationSignal :=
  let metrics := LatencyMetrics.new clk.t_new
  if is_protocol_transaction tx protocol_address = false then (st, none)
  else
    match classify_transaction tx with
    | none => (st, none)
    | some tx_type =>
      let metrics := metrics.mark_decoded clk.t_decoded
      match tx_type with
      | TransactionType.Deposit | TransactionType.Withdraw
      | TransactionType.Borrow | TransactionType.Repay =>
        let user := extract_user_address tx
        match update_position lookup clk.t_updated st user with
        | none => (st, none)
        | some st' =>
          match check_liquidation st' user clk.t_signal metrics with
          | (signal, metrics) =>
            let _metrics := if signal.isSome then metrics.mark_signal clk.t_signal2 else metrics
            (st', signal)
      | TransactionType.Liquidate =>
        let user := extract_user_address tx
        match update_position lookup clk.t_updated st user with
        | none => (st, none)
        | some st' => (st', none)

/-- `simulator.rs` constants. -/
def ETH_PRICE_USD : ℕ := 2000

/-- `LIQUIDATION_BONUS`: 110, a 10% bonus at `PRECISION` 100. -/
def LIQUIDATION_BONUS : ℕ := 110

/-- `PRECISION`. -/
def PRECISION : ℕ := 100

/-- Model of `SimulationResult`; the `f64` fields are exact rationals. -/
structure SimulationResult where
  profitable : Bool
  expected_profit_usd : ℚ
  collateral_to_seize : ℕ
  debt_to_cover : ℕ
  estimated_gas : ℕ
  estimated_gas_cost_usd : ℚ

/-- Model of `LiquidationSimulator` (its blockchain handle is replaced by
passing the two gas lookups to `simulate_liquidation` directly). -/
structure LiquidationSimulator where
  min_profit_threshold : ℚ

/-- `LiquidationSimulator::simulate_liquidation`. `gas_estimate_result`
and `gas_price_result` model `estimate_gas_liquidation` and
`get_gas_price`; `none` is the `Err` case, on which the source falls
back to 300000 gas units and 50 gwei. -/
def simulate_liquidation (sim : LiquidationSimulator)
    (signal : LiquidationSignal) (gas_estimate_result : Option ℕ)
    (gas_price_result : Option ℕ) : SimulationResult :=
  let debt_to_cover := signal.debt
  -- `U256::from(ETH_PRICE_USD * 10u64.pow(18))`: this multiply happens
  -- in `u64` (2000 * 10^18 exceeds u64::MAX) and wraps modulo 2^64 in a
  -- release build before the `U256` conversion; a debug build panics.
  let collateral_value :=
    debt_to_cover * 10 ^ 18 / (ETH_PRICE_USD * 10 ^ 18 % 2 ^ 64)
  let collateral_to_seize := collateral_value * LIQUIDATION_BONUS / PRECISION
  let gas_estimate := gas_estimate_result.getD 300000
  let gas_price := gas_price_result.getD 50000000000
  let gas_cost_wei := gas_estimate * gas_price
  let gas_cost_eth : ℚ := (gas_cost_wei : ℚ) / 10 ^ 18
  let gas_cost_usd := gas_cost_eth * (ETH_PRICE_USD : ℚ)
  let collateral_value_usd := ((collateral_to_seize : ℚ) / 10 ^ 18) * (ETH_PRICE_USD : ℚ)
  let debt_value_usd := (debt_to_cover : ℚ) / 10 ^ 18
  let expected_profit_usd := collateral_value_usd - debt_value_usd - gas_cost_usd
  let profitable := decide (sim.min_profit_threshold ≤ expected_profit_usd)
  { profitable := profitable
    expected_profit_usd := expected_profit_usd
    collateral_to_seize := collateral_to_seize
    debt_to_cover := debt_to_cover
    estimated_gas := gas_estimate
    estimated_gas_cost_usd := gas_cost_usd }

/-- `LiquidationSimulator::quick_profitability_check`. The `f64` literal
`0.10` is modelled as the exact rational `10/100`; the subtracted
`debt_value_usd * 0.0` term of the source is kept verbatim. -/
def quick_profitability_check (sim : LiquidationSimulator)
    (signal : LiquidationSignal) : Bool :=
  let collateral_value_usd := ((signal.collateral : ℚ) / 10 ^ 18) * (ETH_PRICE_USD : ℚ)
  let debt_value_usd := (signal.debt : ℚ) / 10 ^ 18
  let bonus_value := collateral_value_usd * (10 / 100) - debt_value_usd * 0
  let estimated_gas_cost_usd := ((300000 * 50 : ℚ) / 10 ^ 9) * (ETH_PRICE_USD : ℚ)
  decide (estimated_gas_cost_usd + sim.min_profit_threshold < bonus_value)

/-- `LiquidationSimulator::optimize_debt_amount`: the POC pass-through. -/
def optimize_debt_amount (sim : LiquidationSimulator)
    (signal : LiquidationSignal) : ℕ :=
  signal.debt

/-! Helper lemmas (shared; none is a claim theorem). -/

lemma store_get_insert_self (st : PositionStore) (u : ℕ) (p : UserPosition) :
    store_get (store_insert st u p) u = some p := by
  induction st with
  | nil => simp [store_insert, store_get]
  | cons kv rest ih =>
    obtain ⟨k, q⟩ := kv
    by_cases h : k = u
    · simp [store_insert, store_get, h]
    · simp [store_insert, store_get, h, ih]

lemma applyMark_t_received (m : LatencyMetrics) (mk : Mark) (t : ℕ) :
    (applyMark m mk t).t_received = m.t_received := by
  cases mk <;> rfl

lemma applyMarks_t_received (seq : List (Mark × ℕ)) (m : LatencyMetrics) :
    (applyMarks m seq).t_received = m.t_received := by
  induction seq generalizing m with
  | nil => rfl
  | cons p rest ih =>
    obtain ⟨mk, t⟩ := p
    rw [applyMarks, ih, applyMark_t_received]

/-- C10: the `received` timestamp of a `LatencyMetrics` is never absent —
it is fixed at construction and no mark operation changes it — and the
derived `latency_decode` (resp. `latency_end_to_end`) duration is present
exactly when `t_decoded` (resp. `t_sent`) is set: the non-optional
`received` endpoint can never make them missing. -/
theorem t_received_always_present (c : ℕ) (seq : List (Mark × ℕ)) (m : LatencyMetrics) :
    (applyMarks (LatencyMetrics.new c) seq).t_received = c ∧
    (LatencyMetrics.latency_decode m).isSome = m.t_decoded.isSome ∧
    (LatencyMetrics.latency_end_to_end m).isSome = m.t_sent.isSome := by
  refine ⟨?_, ?_, ?_⟩
  · rw [applyMarks_t_received]; rfl
  · simp [LatencyMetrics.latency_decode]
  · simp [LatencyMetrics.latency_end_to_end]

/-- C6 counterexample: `mark_decoded` is not idempotent — a second call
at a later clock reading replaces the previously recorded timestamp
(here 5 becomes 7), contradicting "calling the same mark method a second
time leaves the previously recorded timestamp unchanged". -/
theorem mark_decoded_second_call_overwrites :
    (((LatencyMetrics.new 0).mark_decoded 5).mark_decoded 7).t_decoded ≠
      ((LatencyMetrics.new 0).mark_decoded 5).t_decoded := by
  decide

/-- C6 amended: each stage-mark method records the current clock reading
unconditionally, overwriting any previously set timestamp; a repeated
mark is last-write-wins, and after a call the timestamp equals that
call's "now". -/
theorem mark_methods_overwrite (m : LatencyMetrics) (t1 t2 : ℕ) :
    ((m.mark_decoded t1).mark_decoded t2 = m.mark_decoded t2 ∧
       (m.mark_decoded t2).t_decoded = some t2) ∧
    ((m.mark_signal t1).mark_signal t2 = m.mark_signal t2 ∧
       (m.mark_signal t2).t_signal = some t2) ∧
    ((m.mark_simulated t1).mark_simulated t2 = m.mark_simulated t2 ∧
       (m.mark_simulated t2).t_simulated = some t2) ∧
    ((m.mark_constructed t1).mark_constructed t2 = m.mark_constructed t2 ∧
       (m.mark_constructed t2).t_constructed = some t2) ∧
    ((m.mark_sent t1).mark_sent t2 = m.mark_sent t2 ∧
       (m.mark_sent t2).t_sent = some t2) :=
  ⟨⟨rfl, rfl⟩, ⟨rfl, rfl⟩, ⟨rfl, rfl⟩, ⟨rfl, rfl⟩, ⟨rfl, rfl⟩⟩

/-- C2: if the external position lookup fails during
`process_transaction` (for any classified protocol transaction, the
`Liquidate` branch included), the position store is returned exactly as
it was and the call yields no signal instead of propagating the error. -/
theorem process_transaction_lookup_failure_preserves_store
    (lookup : PositionLookup) (clk : DetectorClock) (st : PositionStore)
    (tx : Transaction) (protocol_address : ℕ) (ty : TransactionType)
    (hprot : is_protocol_transaction tx protocol_address = true)
    (hty : classify_transaction tx = some ty)
    (hlookup : lookup (extract_user_address tx) = none) :
    process_transaction lookup clk st tx protocol_address = (st, none) := by
  cases ty <;>
    simp [process_transaction, hprot, hty, update_position, hlookup]

/-- C2 witness. -/
theorem process_transaction_lookup_failure_preserves_store_witness :
    process_transaction (fun _ => none) ⟨0, 1, 2, 3, 4⟩
      [(9, ⟨1, 2, 3, 4⟩)] ⟨7, some 1, encode_deposit_call⟩ 1 =
      ([(9, ⟨1, 2, 3, 4⟩)], none) :=
  process_transaction_lookup_failure_preserves_store
    (fun _ => none) ⟨0, 1, 2, 3, 4⟩ [(9, ⟨1, 2, 3, 4⟩)]
    ⟨7, some 1, encode_deposit_call⟩ 1 TransactionType.Deposit
    (by decide) (by decide) rfl

/-- C3 evaluation at a failing input, the §8 concrete scenario (5 ETH
collateral, debt 8000 at USD-wei scale, threshold 10): `debt_to_cover`
and `optimize_debt_amount` do pass the full debt through as claimed, but
`collateral_to_seize` is NOT the debt converted at the 2000 USD unit
price times the 110/100 bonus. The source's divisor
`ETH_PRICE_USD * 10u64.pow(18)` overflows `u64`, wrapping to
7751640039368425472 instead of 2000 * 10^18 (a debug build panics at
this multiply), so the code seizes 1135243632999887203441 wei
(about 1135 ETH) where the claimed formula gives 4.4 * 10^18 wei
(4.4 ETH). -/
theorem simulate_liquidation_wrapped_divisor :
    ETH_PRICE_USD * 10 ^ 18 % 2 ^ 64 = 7751640039368425472 ∧
    (simulate_liquidation ⟨10⟩ ⟨0, 5 * 10 ^ 18, 8000 * 10 ^ 18, 80, LatencyMetrics.new 0⟩
        none none).debt_to_cover = 8000 * 10 ^ 18 ∧
    (simulate_liquidation ⟨10⟩ ⟨0, 5 * 10 ^ 18, 8000 * 10 ^ 18, 80, LatencyMetrics.new 0⟩
        none none).collateral_to_seize = 1135243632999887203441 ∧
    (simulate_liquidation ⟨10⟩ ⟨0, 5 * 10 ^ 18, 8000 * 10 ^ 18, 80, LatencyMetrics.new 0⟩
        none none).collateral_to_seize ≠
      8000 * 10 ^ 18 / ETH_PRICE_USD * LIQUIDATION_BONUS / PRECISION ∧
    optimize_debt_amount ⟨10⟩ ⟨0, 5 * 10 ^ 18, 8000 * 10 ^ 18, 80, LatencyMetrics.new 0⟩
      = 8000 * 10 ^ 18 := by
  refine ⟨by norm_num [ETH_PRICE_USD], rfl, by decide, by decide, rfl⟩

/-- C1: for a protocol transaction classified as Deposit, Withdraw,
Borrow or Repay whose position refresh succeeds, `process_transaction`
returns a signal iff the refreshed position has
`health_factor < LIQUIDATION_THRESHOLD` and positive debt, and any
returned signal carries exactly the refreshed collateral, debt and
health factor. -/
theorem process_transaction_signal_iff_unhealthy
    (lookup : PositionLookup) (clk : DetectorClock) (st : PositionStore)
    (tx : Transaction) (protocol_address : ℕ) (ty : TransactionType)
    (collateral debt health_factor : ℕ)
    (hprot : is_protocol_transaction tx protocol_address = true)
    (hty : classify_transaction tx = some ty)
    (hkind : ty ≠ TransactionType.Liquidate)
    (hlookup : lookup (extract_user_address tx) = some (collateral, debt, health_factor)) :
    ((process_transaction lookup clk st tx protocol_address).2.isSome ↔
       health_factor < LIQUIDATION_THRESHOLD ∧ 0 < debt) ∧
    (∀ sig, (process_transaction lookup clk st tx protocol_address).2 = some sig →
       sig.collateral = collateral ∧ sig.debt = debt ∧ sig.health_factor = health_factor) := by
  by_cases hc : health_factor < LIQUIDATION_THRESHOLD ∧ 0 < debt <;>
    cases ty <;>
      simp [process_transaction, hprot, hty, update_position, hlookup,
        check_liquidation, store_get_insert_self, hc] at hkind ⊢

/-- C1 witness: a deposit whose refresh reports health factor 60 and
debt 8 — liquidatable, and the signal carries the refreshed values. -/
theorem process_transaction_signal_iff_unhealthy_witness :
    ((process_transaction (fun _ => some (5, 8, 60)) ⟨0, 1, 2, 3, 4⟩ []
        ⟨7, some 1, encode_deposit_call⟩ 1).2.isSome ↔
      60 < LIQUIDATION_THRESHOLD ∧ 0 < 8) ∧
    (∀ sig, (process_transaction (fun _ => some (5, 8, 60)) ⟨0, 1, 2, 3, 4⟩ []
        ⟨7, some 1, encode_deposit_call⟩ 1).2 = some sig →
      sig.collateral = 5 ∧ sig.debt = 8 ∧ sig.health_factor = 60) :=
  process_transaction_signal_iff_unhealthy (fun _ => some (5, 8, 60)) ⟨0, 1, 2, 3, 4⟩ []
    ⟨7, some 1, encode_deposit_call⟩ 1 TransactionType.Deposit 5 8 60
    (by decide) (by decide) (by decide) rfl

lemma classify_selector_eq_none (l : List ℕ)
    (h1 : l ≠ [0xd0, 0xe3, 0x0d, 0xb0]) (h2 : l ≠ [0xc5, 0xeb, 0xea, 0xec])
    (h3 : l ≠ [0x2e, 0x1a, 0x7d, 0x4d]) (h4 : l ≠ [0x37, 0x1f, 0xd8, 0xe6])
    (h5 : l ≠ [0x26, 0xcd, 0xbe, 0x1a]) : classify_selector l = none := by
  unfold classify_selector
  split <;> simp_all

/-- C8: `classify_transaction` returns `none` for every payload shorter
than four bytes; on longer payloads it maps each of the five exact
4-byte discriminants to its action kind and any other discriminant to
`none`; and classifying the output of each encoder yields the encoded
action back. -/
theorem classify_transaction_table :
    (∀ tx : Transaction, tx.input.length < 4 → classify_transaction tx = none) ∧
    (∀ tx : Transaction, 4 ≤ tx.input.length →
       (tx.input.take 4 = [0xd0, 0xe3, 0x0d, 0xb0] →
          classify_transaction tx = some TransactionType.Deposit) ∧
       (tx.input.take 4 = [0xc5, 0xeb, 0xea, 0xec] →
          classify_transaction tx = some TransactionType.Borrow) ∧
       (tx.input.take 4 = [0x2e, 0x1a, 0x7d, 0x4d] →
          classify_transaction tx = some TransactionType.Withdraw) ∧
       (tx.input.take 4 = [0x37, 0x1f, 0xd8, 0xe6] →
          classify_transaction tx = some TransactionType.Repay) ∧
       (tx.input.take 4 = [0x26, 0xcd, 0xbe, 0x1a] →
          classify_transaction tx = some TransactionType.Liquidate) ∧
       (tx.input.take 4 ≠ [0xd0, 0xe3, 0x0d, 0xb0] →
        tx.input.take 4 ≠ [0xc5, 0xeb, 0xea, 0xec] →
        tx.input.take 4 ≠ [0x2e, 0x1a, 0x7d, 0x4d] →
        tx.input.take 4 ≠ [0x37, 0x1f, 0xd8, 0xe6] →
        tx.input.take 4 ≠ [0x26, 0xcd, 0xbe, 0x1a] →
          classify_transaction tx = none)) ∧
    (∀ sender : ℕ, ∀ ro : Option ℕ,
       classify_transaction ⟨sender, ro, encode_deposit_call⟩ = some TransactionType.Deposit) ∧
    (∀ sender : ℕ, ∀ ro : Option ℕ, ∀ amount : ℕ,
       classify_transaction ⟨sender, ro, encode_borrow_call amount⟩ = some TransactionType.Borrow) ∧
    (∀ sender : ℕ, ∀ ro : Option ℕ, ∀ amount : ℕ,
       classify_transaction ⟨sender, ro, encode_withdraw_call amount⟩ = some TransactionType.Withdraw) ∧
    (∀ sender : ℕ, ∀ ro : Option ℕ, ∀ amount : ℕ,
       classify_transaction ⟨sender, ro, encode_repay_call amount⟩ = some TransactionType.Repay) ∧
    (∀ sender : ℕ, ∀ ro : Option ℕ, ∀ user debt_to_cover : ℕ,
       classify_transaction ⟨sender, ro, encode_liquidate_call user debt_to_cover⟩ =
         some TransactionType.Liquidate) := by
  refine ⟨?_, ?_, fun _ _ => rfl, fun _ _ _ => rfl, fun _ _ _ => rfl, fun _ _ _ => rfl,
    fun _ _ _ _ => rfl⟩
  · intro tx h
    simp [classify_transaction, h]
  · intro tx h
    have hcl : classify_transaction tx = classify_selector (tx.input.take 4) := by
      rw [classify_transaction, if_neg (by omega)]
    refine ⟨fun he => by rw [hcl, he]; rfl, fun he => by rw [hcl, he]; rfl,
      fun he => by rw [hcl, he]; rfl, fun he => by rw [hcl, he]; rfl,
      fun he => by rw [hcl, he]; rfl, fun h1 h2 h3 h4 h5 => ?_⟩
    rw [hcl]
    exact classify_selector_eq_none _ h1 h2 h3 h4 h5

/-- C8 witness: a short payload, an exact discriminant with trailing
bytes, and an unrecognized discriminant. -/
theorem classify_transaction_table_witness :
    classify_transaction ⟨0, none, [1, 2]⟩ = none ∧
    classify_transaction ⟨0, none, [0xd0, 0xe3, 0x0d, 0xb0, 0xff]⟩ =
      some TransactionType.Deposit ∧
    classify_transaction ⟨0, none, [9, 9, 9, 9, 9]⟩ = none :=
  ⟨classify_transaction_table.1 ⟨0, none, [1, 2]⟩ (by decide),
   (classify_transaction_table.2.1 ⟨0, none, [0xd0, 0xe3, 0x0d, 0xb0, 0xff]⟩ (by decide)).1
     (by decide),
   (classify_transaction_table.2.1 ⟨0, none, [9, 9, 9, 9, 9]⟩ (by decide)).2.2.2.2.2
     (by decide) (by decide) (by decide) (by decide) (by decide)⟩

/-- C9 evaluation at a failing input: a `liquidate(address,uint256)`
transaction sent by liquidator 170 naming the liquidated borrower 187 in
its calldata. `process_transaction` classifies it as Liquidate and
returns no signal, but it refreshes the position of the transaction
sender (the liquidator, account 170) and leaves the liquidated
borrower's stale entry (account 187) untouched, because
`extract_user_address` returns `tx.from` for every transaction type. -/
theorem liquidate_updates_sender_not_liquidated_user :
    classify_transaction ⟨170, some 1, encode_liquidate_call 187 1000⟩ =
      some TransactionType.Liquidate ∧
    calldata_liquidated_user (encode_liquidate_call 187 1000) = 187 ∧
    (process_transaction (fun _ => some (1, 2, 50)) ⟨0, 1, 2, 3, 4⟩
        [(187, ⟨9, 9, 9, 9⟩)] ⟨170, some 1, encode_liquidate_call 187 1000⟩ 1).2 = none ∧
    store_get (process_transaction (fun _ => some (1, 2, 50)) ⟨0, 1, 2, 3, 4⟩
        [(187, ⟨9, 9, 9, 9⟩)] ⟨170, some 1, encode_liquidate_call 187 1000⟩ 1).1 187 =
      some ⟨9, 9, 9, 9⟩ ∧
    store_get (process_transaction (fun _ => some (1, 2, 50)) ⟨0, 1, 2, 3, 4⟩
        [(187, ⟨9, 9, 9, 9⟩)] ⟨170, some 1, encode_liquidate_call 187 1000⟩ 1).1 170 =
      some ⟨1, 2, 50, 4⟩ := by
  decide

/-- C4 evaluation at a failing input: with the built-in price constant
and the default gas estimate and gas price (both gas lookups failing
over to their fallbacks) and the default 10 USD profit threshold, the
quick check greenlights a signal with huge collateral (1000 ETH) and
negligible debt (0.001 USD at wei scale), while the full simulation —
wrapped `u64` divisor included — computes an expected profit of about
−29.72 USD and rejects it: the quick heuristic takes 10% of the
*collateral* value, while the simulated profit depends only on the
*debt* value minus gas, so the quick check is not conservative. -/
theorem quick_check_not_conservative :
    quick_profitability_check ⟨10⟩ ⟨7, 10 ^ 21, 10 ^ 15, 80, LatencyMetrics.new 0⟩ = true ∧
    (simulate_liquidation ⟨10⟩ ⟨7, 10 ^ 21, 10 ^ 15, 80, LatencyMetrics.new 0⟩
        none none).profitable = false := by
  constructor
  · rw [quick_profitability_check, decide_eq_true_eq]
    norm_num [ETH_PRICE_USD]
  · rw [simulate_liquidation]
    simp only [Option.getD]
    rw [decide_eq_false_iff_not]
    norm_num [ETH_PRICE_USD, LIQUIDATION_BONUS, PRECISION]

lemma cp_applyMark (m : LatencyMetrics) (mk : Mark) (t : ℕ) (i : ℕ) :
    cp (applyMark m mk t) i = if i = stageIdx mk then some t else cp m i := by
  cases mk <;> rcases i with _|_|_|_|_|_|i <;>
    simp [cp, applyMark, stageIdx, LatencyMetrics.mark_decoded, LatencyMetrics.mark_signal,
      LatencyMetrics.mark_simulated, LatencyMetrics.mark_constructed, LatencyMetrics.mark_sent]

lemma cp_new (c : ℕ) (i : ℕ) :
    cp (LatencyMetrics.new c) i = if i = 0 then some c else none := by
  rcases i with _|_|_|_|_|_|i <;> simp [cp, LatencyMetrics.new]

lemma monoChain_applyMarks (seq : List (Mark × ℕ)) :
    ∀ (m : LatencyMetrics) (k t : ℕ),
      monoChain m →
      (∀ i, k < i → cp m i = none) →
      (∀ i v, cp m i = some v → v ≤ t) →
      SeqOk k t seq →
      monoChain (applyMarks m seq) := by
  induction seq with
  | nil => exact fun m _ _ h1 _ _ _ => h1
  | cons p rest ih =>
    obtain ⟨mk, tm⟩ := p
    intro m k t h1 h2 h3 hseq
    obtain ⟨hk, ht, hrest⟩ := hseq
    rw [applyMarks]
    apply ih (applyMark m mk tm) (stageIdx mk) tm
    · intro i j hij
      rw [cp_applyMark, cp_applyMark]
      by_cases hi : i = stageIdx mk <;> by_cases hj : j = stageIdx mk
      · rw [if_pos hi, if_pos hj]; exact Nat.le_refl tm
      · rw [if_pos hi, if_neg hj, h2 j (by omega)]; trivial
      · rw [if_neg hi, if_pos hj]
        cases hcp : cp m i with
        | none => trivial
        | some v => exact le_trans (h3 i v hcp) ht
      · rw [if_neg hi, if_neg hj]; exact h1 i j hij
    · intro i hi
      rw [cp_applyMark, if_neg (by omega)]
      exact h2 i (by omega)
    · intro i v hv
      rw [cp_applyMark] at hv
      by_cases hi : i = stageIdx mk
      · rw [if_pos hi] at hv
        injection hv with h'
        omega
      · rw [if_neg hi] at hv
        exact le_trans (h3 i v hv) ht
    · exact hrest

/-- C7 counterexample: a sequence of mark calls under a monotone clock
(`mark_sent` at time 1, then `mark_decoded` at time 2, both after
creation at time 0) whose resulting checkpoints violate the
`decoded ≤ sent` leg of the chain — the claim's "any sequence of
mark-method calls" is false; nothing in the code prevents out-of-order
marks from producing out-of-order timestamps. -/
theorem checkpoint_chain_out_of_order_violation :
    ClockOk 0 [(Mark.sent, 1), (Mark.decoded, 2)] ∧
    ¬ monoChain (applyMarks (LatencyMetrics.new 0) [(Mark.sent, 1), (Mark.decoded, 2)]) :=
  ⟨by decide, fun h => absurd (h 1 5 (by omega)) (by decide)⟩

/-- C7 amended: for any `LatencyMetrics` created by `new` and mutated by
a sequence of mark-method calls made in non-decreasing pipeline-stage
order, each reading a monotone clock (`SeqOk 0 c`), whichever of the six
checkpoint timestamps are set satisfy
received ≤ decoded ≤ signal ≤ simulated ≤ constructed ≤ sent, comparing
only pairs where both are set. -/
theorem checkpoint_chain_of_ordered_marks (c : ℕ) (seq : List (Mark × ℕ))
    (h : SeqOk 0 c seq) :
    monoChain (applyMarks (LatencyMetrics.new c) seq) := by
  apply monoChain_applyMarks seq (LatencyMetrics.new c) 0 c
  · intro i j hij
    rw [cp_new, cp_new]
    by_cases hi : i = 0 <;> by_cases hj : j = 0
    · rw [if_pos hi, if_pos hj]; exact Nat.le_refl c
    · rw [if_pos hi, if_neg hj]; trivial
    · rw [if_neg hi, if_pos hj]; trivial
    · rw [if_neg hi, if_neg hj]; trivial
  · intro i hi
    rw [cp_new, if_neg (by omega)]
  · intro i v hv
    rw [cp_new] at hv
    by_cases hi : i = 0
    · rw [if_pos hi] at hv
      injection hv with h'
      omega
    · rw [if_neg hi] at hv
      exact absurd hv (by simp)
  · exact h

/-- C7 witness: an in-order run through decode, signal, simulate and
send with a monotone clock. -/
theorem checkpoint_chain_of_ordered_marks_witness :
    monoChain (applyMarks (LatencyMetrics.new 0)
      [(Mark.decoded, 1), (Mark.signal, 1), (Mark.simulated, 3), (Mark.sent, 5)]) :=
  checkpoint_chain_of_ordered_marks 0
    [(Mark.decoded, 1), (Mark.signal, 1), (Mark.simulated, 3), (Mark.sent, 5)] (by decide)

lemma percentile_getD (agg : AggregateMetrics) (metric_name : String) (p : ℚ)
    (hne : metricValues agg metric_name ≠ []) :
    percentile agg metric_name p =
      some (((metricValues agg metric_name).insertionSort (· ≤ ·)).getD
        (min ((⌊(p / 100) * ((metricValues agg metric_name).length : ℚ)⌋).toNat)
          ((metricValues agg metric_name).length - 1)) 0) := by
  have h : percentile agg metric_name p =
      if (metricValues agg metric_name).isEmpty then none
      else some (((metricValues agg metric_name).insertionSort (· ≤ ·)).getD
        (min ((⌊(p / 100) * ((metricValues agg metric_name).length : ℚ)⌋).toNat)
          ((metricValues agg metric_name).length - 1)) 0) := rfl
  rw [h, if_neg]
  simp [List.isEmpty_iff, hne]

lemma insertionSort_getD_last_max (l : List ℚ) (hne : l ≠ []) :
    (l.insertionSort (· ≤ ·)).getD (l.length - 1) 0 ∈ l ∧
    ∀ x ∈ l, x ≤ (l.insertionSort (· ≤ ·)).getD (l.length - 1) 0 := by
  have hperm := List.perm_insertionSort (· ≤ ·) l
  have hlen : (l.insertionSort (· ≤ ·)).length = l.length := hperm.length_eq
  have hpos : 0 < l.length := List.length_pos.mpr hne
  have hidx : l.length - 1 < (l.insertionSort (· ≤ ·)).length := by omega
  have hsorted := List.sorted_insertionSort (· ≤ ·) l
  rw [List.getD_eq_getElem _ _ hidx]
  constructor
  · exact hperm.subset (List.getElem_mem hidx)
  · intro x hx
    obtain ⟨i, hi, hix⟩ := List.getElem_of_mem (hperm.mem_iff.mpr hx)
    have hfin : (⟨i, hi⟩ : Fin (l.insertionSort (· ≤ ·)).length) ≤ ⟨l.length - 1, hidx⟩ := by
      simp only [Fin.mk_le_mk]
      omega
    have := hsorted.rel_get_of_le hfin
    simpa [List.get_eq_getElem, hix] using this

lemma insertionSort_getD_zero_min (l : List ℚ) (hne : l ≠ []) :
    (l.insertionSort (· ≤ ·)).getD 0 0 ∈ l ∧
    ∀ x ∈ l, (l.insertionSort (· ≤ ·)).getD 0 0 ≤ x := by
  have hperm := List.perm_insertionSort (· ≤ ·) l
  have hlen : (l.insertionSort (· ≤ ·)).length = l.length := hperm.length_eq
  have hpos : 0 < l.length := List.length_pos.mpr hne
  have hidx : 0 < (l.insertionSort (· ≤ ·)).length := by omega
  have hsorted := List.sorted_insertionSort (· ≤ ·) l
  rw [List.getD_eq_getElem _ _ hidx]
  constructor
  · exact hperm.subset (List.getElem_mem hidx)
  · intro x hx
    obtain ⟨i, hi, hix⟩ := List.getElem_of_mem (hperm.mem_iff.mpr hx)
    have hfin : (⟨0, hidx⟩ : Fin (l.insertionSort (· ≤ ·)).length) ≤ ⟨i, hi⟩ := by
      simp only [Fin.mk_le_mk]
      omega
    have := hsorted.rel_get_of_le hfin
    simpa [List.get_eq_getElem, hix] using this

/-- C5: `percentile` returns `none` exactly when no recorded row carries
the metric; when at least one value is present, `percentile(metric, 100)`
is the maximum recorded value of the metric and `percentile(metric, 0)`
is the minimum (the nearest-rank index `floor(p/100 * n)` clamped to
`n-1` lands on the last, resp. first, element of the ascending sort). -/
theorem percentile_extremes (agg : AggregateMetrics) (metric_name : String) :
    (∀ p, percentile agg metric_name p = none ↔ metricValues agg metric_name = []) ∧
    (metricValues agg metric_name ≠ [] →
       ∃ v, percentile agg metric_name 100 = some v ∧
         v ∈ metricValues agg metric_name ∧
         ∀ x ∈ metricValues agg metric_name, x ≤ v) ∧
    (metricValues agg metric_name ≠ [] →
       ∃ v, percentile agg metric_name 0 = some v ∧
         v ∈ metricValues agg metric_name ∧
         ∀ x ∈ metricValues agg metric_name, v ≤ x) := by
  refine ⟨?_, ?_, ?_⟩
  · intro p
    by_cases hne : metricValues agg metric_name = []
    · constructor
      · intro _; exact hne
      · intro _
        show (if (metricValues agg metric_name).isEmpty then none else _) = _
        rw [if_pos]
        simp [List.isEmpty_iff, hne]
    · rw [percentile_getD agg metric_name p hne]
      simp [hne]
  · intro hne
    have hpos : 0 < (metricValues agg metric_name).length := List.length_pos.mpr hne
    have hidx : ((⌊((100 : ℚ) / 100) * ((metricValues agg metric_name).length : ℚ)⌋).toNat)
        = (metricValues agg metric_name).length := by
      rw [show ((100 : ℚ) / 100) = 1 by norm_num, one_mul, Int.floor_natCast, Int.toNat_natCast]
    refine ⟨_, ?_, insertionSort_getD_last_max _ hne⟩
    rw [percentile_getD agg metric_name 100 hne, hidx]
    congr 2
    omega
  · intro hne
    have hidx : ((⌊((0 : ℚ) / 100) * ((metricValues agg metric_name).length : ℚ)⌋).toNat)
        = 0 := by
      norm_num
    refine ⟨_, ?_, insertionSort_getD_zero_min _ hne⟩
    rw [percentile_getD agg metric_name 0 hne, hidx]
    congr 2
    omega

/-- C5 witness: a three-row aggregate whose metric "a" has values
3, 1, 2; the 100th percentile exists and is maximal, the 0th exists and
is minimal, and a metric carried by no row yields `none`. -/
theorem percentile_extremes_witness :
    (percentile ⟨3, 1, 2, [[("a", 3)], [("a", 1), ("b", 9)], [("a", 2)]]⟩ "z" 50 = none ↔
       metricValues ⟨3, 1, 2, [[("a", 3)], [("a", 1), ("b", 9)], [("a", 2)]]⟩ "z" = []) ∧
    (∃ v, percentile ⟨3, 1, 2, [[("a", 3)], [("a", 1), ("b", 9)], [("a", 2)]]⟩ "a" 100 = some v ∧
       v ∈ metricValues ⟨3, 1, 2, [[("a", 3)], [("a", 1), ("b", 9)], [("a", 2)]]⟩ "a" ∧
       ∀ x ∈ metricValues ⟨3, 1, 2, [[("a", 3)], [("a", 1), ("b", 9)], [("a", 2)]]⟩ "a", x ≤ v) ∧
    (∃ v, percentile ⟨3, 1, 2, [[("a", 3)], [("a", 1), ("b", 9)], [("a", 2)]]⟩ "a" 0 = some v ∧
       v ∈ metricValues ⟨3, 1, 2, [[("a", 3)], [("a", 1), ("b", 9)], [("a", 2)]]⟩ "a" ∧
       ∀ x ∈ metricValues ⟨3, 1, 2, [[("a", 3)], [("a", 1), ("b", 9)], [("a", 2)]]⟩ "a", v ≤ x) :=
  ⟨(percentile_extremes ⟨3, 1, 2, [[("a", 3)], [("a", 1), ("b", 9)], [("a", 2)]]⟩ "z").1 50,
   (percentile_extremes ⟨3, 1, 2, [[("a", 3)], [("a", 1), ("b", 9)], [("a", 2)]]⟩ "a").2.1
     (by decide),
   (percentile_extremes ⟨3, 1, 2, [[("a", 3)], [("a", 1), ("b", 9)], [("a", 2)]]⟩ "a").2.2
     (by decide)⟩
